import Mathlib

/-!
Verification of the watch-configuration-to-event-dispatch engine of
`src/watcher.py` (the `watcher` daemon).

The Python source is shallowly embedded below:

* `shellquote`      — `EventHandler.shellquote` (lines 205-211);
* `substitute`      — Python `string.Template.substitute` as used by
  `EventHandler.run_command` (template syntax `$$`, `$name`, `${name}`;
  an unknown placeholder or an invalid placeholder raises, modelled as
  `none`);
* `envOf` / `run_command` / `processEvents` — `EventHandler.run_command`
  (lines 213-228) and the per-watch event loop that invokes it;
* `_parse_mask` / `_add_mask` — `WatcherDaemon._parse_mask` and
  `WatcherDaemon._add_mask` (lines 361-422), with the `pyinotify.IN_*`
  constants at their kernel values;
* `pyStrip` / `pySplitComma` — Python `str.strip()` and `str.split(",")`;
* `buildExcl` / `bindingDispatch` — the exclusion-filter construction in
  `WatcherDaemon.run` (lines 336-350) and its application to one event;
* `buildNotifiers` / `startedNotifiers` — the per-section setup loop of
  `WatcherDaemon.run` (lines 320-359).

Machine integers: the inotify masks are small bit-sets, far below any
overflow boundary, so they are embedded as `Nat` with `Nat.lor` for the
Python `|` operator.  Python's `ret = False` accumulator start is embedded
as `0` (Python's `False == 0`, and `not ret` is exactly the test `ret = 0`
on the values that occur: `False` and nonzero masks).
-/

/-! ## Characters used when embedding quoting (kept out of string literals) -/

/-- The single-quote character `0x27`. -/
def squoteC : Char := Char.ofNat 39

/-- The backslash character `0x5c`. -/
def bslashC : Char := Char.ofNat 92

/-- The dollar character that introduces a `string.Template` placeholder. -/
def dollarC : Char := Char.ofNat 36

/-- The opening-brace character `0x7b` of a braced placeholder. -/
def lbraceC : Char := Char.ofNat 123

/-- The closing-brace character `0x7d` of a braced placeholder. -/
def rbraceC : Char := Char.ofNat 125

/-- The double-quote character `0x22`. -/
def dquoteC : Char := Char.ofNat 34

/-- The backquote character `0x60`. -/
def bquoteC : Char := Char.ofNat 96

/-! ## `EventHandler.shellquote` -/

/-- Body of `EventHandler.shellquote`: Python
`string.replace("'", "'\\''")` — every single quote becomes the
four-character sequence quote, backslash, quote, quote; all other
characters are kept. -/
def quoteBody : List Char → List Char
  | [] => []
  | c :: cs =>
    (if c = squoteC then [squoteC, bslashC, squoteC, squoteC] else [c]) ++ quoteBody cs

/-- `EventHandler.shellquote` (watcher.py lines 205-211): wrap in single
quotes, escaping embedded single quotes via `quoteBody`. -/
def shellquote (s : String) : String :=
  String.mk (squoteC :: quoteBody s.data ++ [squoteC])

/-! ## A conservative POSIX shell word reader

`os.system` hands the expanded command to `/bin/sh`.  To state the
round-trip property we model how the shell cuts a command line into
words.  The reader below handles exactly the constructs that matter for
quoting: unquoted characters, blanks separating words, backslash
escapes, and single-quoted segments.  Every character that would make
the line more than a plain sequence of literal words — an operator, an
expansion, a glob, a double quote, a comment or tilde — yields `none`,
as does an unterminated quote or escape.  A `some ws` result therefore
means the line is precisely the literal words `ws`, with no further
shell syntax in it. -/

/-- Characters the reader refuses to see unquoted: shell operators,
expansion and glob introducers, double quote, comment and tilde. -/
def shellMeta (c : Char) : Bool :=
  c = '|' || c = '&' || c = ';' || c = '<' || c = '>' || c = '(' || c = ')' ||
  c = dollarC || c = bquoteC || c = dquoteC || c = '*' || c = '?' ||
  c = '[' || c = '#' || c = '~'

/-- Blank characters on which the shell splits words. -/
def shellBlank (c : Char) : Bool :=
  c = ' ' || c = '\t' || c = '\n'

/-- Reader modes: ordinary text, just after an unquoted backslash, or
inside a single-quoted segment. -/
inductive ShMode
  | norm
  | esc
  | single
deriving DecidableEq

/-- One-pass shell word reader.  `acc` is the word built so far and
`inw` whether a word is open (so that `''` yields an empty word). -/
def shRun : ShMode → List Char → List Char → Bool → Option (List (List Char))
  | ShMode.norm, [], acc, inw => some (if inw then [acc] else [])
  | ShMode.norm, c :: cs, acc, inw =>
    if c = squoteC then shRun ShMode.single cs acc true
    else if c = bslashC then shRun ShMode.esc cs acc true
    else if shellBlank c then
      if inw then (shRun ShMode.norm cs [] false).map (fun ws => acc :: ws)
      else shRun ShMode.norm cs [] false
    else if shellMeta c then none
    else shRun ShMode.norm cs (acc ++ [c]) inw
  | ShMode.esc, [], _, _ => none
  | ShMode.esc, c :: cs, acc, _ => shRun ShMode.norm cs (acc ++ [c]) true
  | ShMode.single, [], _, _ => none
  | ShMode.single, c :: cs, acc, _ =>
    if c = squoteC then shRun ShMode.norm cs acc true
    else shRun ShMode.single cs (acc ++ [c]) true

/-- Split a command line into its literal words, or `none` when the line
contains any shell syntax beyond literal words. -/
def shellWords (s : String) : Option (List String) :=
  (shRun ShMode.norm s.data [] false).map (fun ws => ws.map String.mk)

/-! ### Round-trip of `shellquote` through the word reader -/

theorem quoteBody_cons (c : Char) (cs : List Char) :
    quoteBody (c :: cs) =
      (if c = squoteC then [squoteC, bslashC, squoteC, squoteC] else [c]) ++ quoteBody cs := rfl

theorem shRun_single_quoteBody (t : List Char) :
    ∀ (acc rest : List Char),
      shRun ShMode.single (quoteBody t ++ squoteC :: rest) acc true =
        shRun ShMode.norm rest (acc ++ t) true := by
  induction t with
  | nil => intro acc rest; simp [quoteBody, shRun]
  | cons c t ih =>
    intro acc rest
    by_cases hc : c = squoteC
    · subst hc
      simp only [quoteBody_cons, if_pos rfl, if_true, eq_self_iff_true,
        List.append_assoc, List.cons_append, List.nil_append]
      have h1 : shRun ShMode.single
          (squoteC :: bslashC :: squoteC :: squoteC :: (quoteBody t ++ squoteC :: rest))
          acc true =
          shRun ShMode.single (quoteBody t ++ squoteC :: rest) (acc ++ [squoteC]) true := by
        simp [shRun, squoteC, bslashC, shellBlank, shellMeta, dollarC, bquoteC, dquoteC]
      rw [h1, ih]
      simp
    · simp only [quoteBody_cons, if_neg hc, List.cons_append, List.nil_append]
      have h1 : shRun ShMode.single (c :: (quoteBody t ++ squoteC :: rest)) acc true =
          shRun ShMode.single (quoteBody t ++ squoteC :: rest) (acc ++ [c]) true := by
        simp [shRun, hc]
      rw [h1, ih]
      simp

/-- C1: for every string value `s`, the shell-quoting performed by
`EventHandler.shellquote` — wrapping in single quotes with each embedded
single quote replaced by the four-character sequence quote, backslash,
quote, quote — round-trips: reading the quoted result as a shell command
line yields exactly one literal word equal to `s`, so no value can
inject additional shell syntax. -/
theorem shellquote_roundtrip : ∀ s : String, shellWords (shellquote s) = some [s] := by
  intro s
  show (shRun ShMode.norm (squoteC :: quoteBody s.data ++ [squoteC]) [] false).map
      (fun ws => ws.map String.mk) = some [s]
  have h0 : shRun ShMode.norm (squoteC :: (quoteBody s.data ++ [squoteC])) [] false =
      shRun ShMode.single (quoteBody s.data ++ squoteC :: []) [] true := by
    simp [shRun]
  rw [List.cons_append, h0, shRun_single_quoteBody s.data [] []]
  simp [shRun]

/-! ## Python `str.strip()` and `str.split(",")` -/

/-- Whitespace characters for Python `str.strip()` (space, tab, newline,
carriage return, vertical tab, form feed). -/
def wsChar (c : Char) : Bool :=
  c = ' ' || c = '\t' || c = '\n' || c = '\r' || c = Char.ofNat 11 || c = Char.ofNat 12

/-- Python `str.strip()` on a character list: drop leading whitespace,
then drop trailing whitespace (via reverse). -/
def stripChars (l : List Char) : List Char :=
  ((l.dropWhile wsChar).reverse.dropWhile wsChar).reverse

/-- Python `str.strip()`. -/
def pyStrip (s : String) : String := String.mk (stripChars s.data)

/-- Python `str.split(",")` on a character list: cut at every comma,
keeping empty pieces. -/
def splitCommaChars : List Char → List (List Char)
  | [] => [[]]
  | c :: cs =>
    if c = ',' then [] :: splitCommaChars cs
    else
      match splitCommaChars cs with
      | [] => [[c]]
      | w :: ws => (c :: w) :: ws

/-- Python `str.split(",")`. -/
def pySplitComma (s : String) : List String :=
  (splitCommaChars s.data).map String.mk

/-! ### `strip` is idempotent (used for mask-token normalisation) -/

theorem dropWhile_ws_idem (l : List Char) :
    (l.dropWhile wsChar).dropWhile wsChar = l.dropWhile wsChar := by
  induction l with
  | nil => rfl
  | cons c cs ih =>
    by_cases h : wsChar c
    · simp [List.dropWhile_cons, h, ih]
    · simp [List.dropWhile_cons, h]

theorem dropWhile_ws_eats (l : List Char) :
    ∃ u, l = u ++ l.dropWhile wsChar := by
  induction l with
  | nil => exact ⟨[], rfl⟩
  | cons c cs ih =>
    by_cases h : wsChar c
    · obtain ⟨u, hu⟩ := ih
      refine ⟨c :: u, ?_⟩
      simp [List.dropWhile_cons, h]
      exact hu
    · exact ⟨[], by simp [List.dropWhile_cons, h]⟩

theorem dropWhile_ws_of_front (x : List Char) (hx : x.dropWhile wsChar = x) :
    ∀ w t : List Char, x = w ++ t → w.dropWhile wsChar = w := by
  intro w t hw
  cases x with
  | nil =>
    have : w = [] := by
      cases w with
      | nil => rfl
      | cons a b => simp at hw
    simp [this]
  | cons c cs =>
    have hc : wsChar c = false := by
      by_contra hcc
      have hcc' : wsChar c = true := by
        cases hcv : wsChar c
        · exact absurd hcv hcc
        · rfl
      rw [List.dropWhile_cons, hcc'] at hx
      simp only [if_true] at hx
      obtain ⟨u, hu⟩ := dropWhile_ws_eats cs
      rw [hx] at hu
      have := congrArg List.length hu
      simp at this
      omega
    cases w with
    | nil => rfl
    | cons a b =>
      have ha : a = c := by
        have := congrArg (fun l => l.headD c) hw
        simpa using this.symm
      subst ha
      simp [List.dropWhile_cons, hc]

theorem stripChars_idem (l : List Char) : stripChars (stripChars l) = stripChars l := by
  unfold stripChars
  set A := l.dropWhile wsChar with hA
  set B := A.reverse.dropWhile wsChar with hB
  have hAfix : A.dropWhile wsChar = A := by rw [hA]; exact dropWhile_ws_idem l
  have hfront : ∃ u, A.reverse = u ++ B := by rw [hB]; exact dropWhile_ws_eats A.reverse
  obtain ⟨u, hu⟩ := hfront
  have hsplit : A = B.reverse ++ u.reverse := by
    have := congrArg List.reverse hu
    simpa [List.reverse_append] using this
  have h1 : B.reverse.dropWhile wsChar = B.reverse :=
    dropWhile_ws_of_front A hAfix B.reverse u.reverse hsplit
  have h2 : B.dropWhile wsChar = B := by rw [hB]; exact dropWhile_ws_idem A.reverse
  rw [h1, List.reverse_reverse, h2]

theorem pyStrip_idem (s : String) : pyStrip (pyStrip s) = pyStrip s :=
  congrArg String.mk (stripChars_idem s.data)

/-! ## Python `string.Template` substitution

`EventHandler.run_command` expands its command template with
`string.Template(...).substitute(...)`.  Template syntax: `$$` is a
literal dollar, `$name` and `${name}` substitute the value bound to
`name` where a name is an ASCII identifier (`[_A-Za-z][_A-Za-z0-9]*`);
an unbound name raises `KeyError` and a malformed placeholder raises
`ValueError`.  Both raising outcomes are embedded as `none`.  The fuel
argument only drives structural recursion; `tmpl.length + 1` steps
always suffice because every step consumes at least one character. -/

/-- First character of a template identifier. -/
def idStart (c : Char) : Bool := c.isAlpha || c = '_'

/-- Subsequent character of a template identifier. -/
def idCont (c : Char) : Bool := idStart c || c.isDigit

/-- Longest identifier at the front of the list, and the remainder. -/
def takeId : List Char → List Char × List Char
  | [] => ([], [])
  | c :: cs =>
    if idCont c then
      match takeId cs with
      | (i, r) => (c :: i, r)
    else ([], c :: cs)

/-- One pass of `string.Template.substitute` over the template text. -/
def substFuel (env : String → Option String) : Nat → List Char → Option (List Char)
  | 0, _ => none
  | _ + 1, [] => some []
  | fuel + 1, c :: cs =>
    if c = dollarC then
      match cs with
      | [] => none
      | d :: ds =>
        if d = dollarC then
          match substFuel env fuel ds with
          | none => none
          | some r => some (dollarC :: r)
        else if d = lbraceC then
          match takeId ds with
          | (i, rest) =>
            if i = [] then none
            else
              match rest with
              | [] => none
              | b :: bs =>
                if b = rbraceC then
                  match env (String.mk i) with
                  | none => none
                  | some v =>
                    match substFuel env fuel bs with
                    | none => none
                    | some r => some (v.data ++ r)
                else none
        else if idStart d then
          match takeId (d :: ds) with
          | (i, rest) =>
            match env (String.mk i) with
            | none => none
            | some v =>
              match substFuel env fuel rest with
              | none => none
              | some r => some (v.data ++ r)
        else none
    else
      match substFuel env fuel cs with
      | none => none
      | some r => some (c :: r)

/-- `string.Template(tmpl).substitute(env)`; `none` when substitution
raises (unknown placeholder name or invalid placeholder). -/
def substitute (tmpl : String) (env : String → Option String) : Option String :=
  (substFuel env (tmpl.data.length + 1) tmpl.data).map String.mk

/-! ## Events and `EventHandler.run_command` -/

/-- One inotify event as `run_command` consumes it: `path` is the
watched directory, `pathname` the full path the event concerns,
`maskname` the human-readable kind, `mask` the raw kind bits, and
`cookie` the move-correlation id — `none` when the Python event object
has no `cookie` attribute (every non-move event). -/
structure FileEvent where
  path : String
  pathname : String
  maskname : String
  mask : Nat
  cookie : Option Nat
deriving DecidableEq

/-- The placeholder environment `run_command` passes to
`Template.substitute`: each of the five defined names is bound to its
shell-quoted value (`event.cookie if hasattr(event, "cookie") else 0`),
every other name is unbound. -/
def envOf (e : FileEvent) : String → Option String := fun name =>
  if name = "watched" then some (shellquote e.path)
  else if name = "filename" then some (shellquote e.pathname)
  else if name = "tflags" then some (shellquote e.maskname)
  else if name = "nflags" then some (shellquote (Nat.repr e.mask))
  else if name = "cookie" then some (shellquote (Nat.repr (e.cookie.getD 0)))
  else none

/-- Observable outcome of one `run_command` call.  `dispatched cmd`:
the expanded command `cmd` was handed to `os.system`, which launched
it.  `loggedFailure cmd`: `os.system` raised `OSError`; the `except`
branch caught it and printed the message containing the literal command
text `cmd`, and control returns normally.  `raised`: an exception
escaped `run_command` — the `try` block only surrounds `os.system`, so
a substitution error is never caught here. -/
inductive RunResult
  | dispatched (cmd : String)
  | loggedFailure (cmd : String)
  | raised
deriving DecidableEq

/-- `EventHandler.run_command` (watcher.py lines 213-228).  `sysFails`
abstracts the OS: whether launching a given command raises `OSError`. -/
def run_command (sysFails : String → Bool) (tmpl : String) (e : FileEvent) : RunResult :=
  match substitute tmpl (envOf e) with
  | none => RunResult.raised
  | some cmd => if sysFails cmd then RunResult.loggedFailure cmd else RunResult.dispatched cmd

/-- The per-watch processing loop around `run_command`: each delivered
event is handled in order; a `raised` outcome is an exception that
propagates out of the handler (nothing in watcher.py catches it, and the
surrounding notifier loop does not either), so no later event of that
watch is processed and the loop is dead (`false`).  Otherwise the loop
goes on (`true` when it survived the whole list). -/
def processEvents (sysFails : String → Bool) (tmpl : String) :
    List FileEvent → List RunResult × Bool
  | [] => ([], true)
  | e :: es =>
    match run_command sysFails tmpl e with
    | RunResult.raised => ([RunResult.raised], false)
    | r => (r :: (processEvents sysFails tmpl es).1, (processEvents sysFails tmpl es).2)

/-! ## `WatcherDaemon._parse_mask` and `WatcherDaemon._add_mask`

The `pyinotify.IN_*` constants at their kernel `inotify.h` values. -/

def IN_ACCESS : Nat := 1
def IN_MODIFY : Nat := 2
def IN_ATTRIB : Nat := 4
def IN_CLOSE_WRITE : Nat := 8
def IN_CLOSE_NOWRITE : Nat := 16
def IN_OPEN : Nat := 32
def IN_MOVED_FROM : Nat := 64
def IN_MOVED_TO : Nat := 128
def IN_CREATE : Nat := 256
def IN_DELETE : Nat := 512
def IN_DELETE_SELF : Nat := 1024
def IN_MOVE_SELF : Nat := 2048

/-- `WatcherDaemon._add_mask` (lines 418-422): Python
`if not current_options: return new_option else: return current_options | new_option`,
with the falsy start `False` embedded as `0`. -/
def _add_mask (new_option current_options : Nat) : Nat :=
  if current_options = 0 then new_option else current_options ||| new_option

/-- The recognised-token table of `WatcherDaemon._parse_mask` (lines
361-416), one row per `elif` branch of the source chain, in source
order: the token text compared against the stripped mask token, and the
`pyinotify` constant (or union of constants) that branch folds in. -/
def maskTable : List (String × Nat) :=
  [("access", IN_ACCESS),
   ("attribute_change", IN_ATTRIB),
   ("write_close", IN_CLOSE_WRITE),
   ("nowrite_close", IN_CLOSE_NOWRITE),
   ("create", IN_CREATE),
   ("delete", IN_DELETE),
   ("self_delete", IN_DELETE_SELF),
   ("modify", IN_MODIFY),
   ("self_move", IN_MOVE_SELF),
   ("move_from", IN_MOVED_FROM),
   ("move_to", IN_MOVED_TO),
   ("open", IN_OPEN),
   ("all",
     IN_ACCESS ||| IN_ATTRIB ||| IN_CLOSE_WRITE ||| IN_CLOSE_NOWRITE |||
       IN_CREATE ||| IN_DELETE ||| IN_DELETE_SELF ||| IN_MODIFY |||
       IN_MOVE_SELF ||| IN_MOVED_FROM ||| IN_MOVED_TO ||| IN_OPEN),
   ("move", IN_MOVED_FROM ||| IN_MOVED_TO),
   ("close", IN_CLOSE_WRITE ||| IN_CLOSE_NOWRITE)]

/-- First-match lookup through an `if`/`elif` chain of equality tests,
as the source performs on the stripped token. -/
def chainFind : List (String × Nat) → String → Option Nat
  | [], _ => none
  | (k, v) :: rest, s => if s = k then some v else chainFind rest s

/-- The loop of `WatcherDaemon._parse_mask` (lines 361-416): strip the
token; when it matches a branch of the chain, fold that branch's
constant into the accumulator with `_add_mask`; otherwise the token is
silently ignored and the accumulator is unchanged. -/
def _parse_mask_go (ret : Nat) : List String → Nat
  | [] => ret
  | m :: ms =>
    match chainFind maskTable (pyStrip m) with
    | some v => _parse_mask_go (_add_mask v ret) ms
    | none => _parse_mask_go ret ms

/-- `WatcherDaemon._parse_mask` (lines 361-416); the Python `ret =
False` start is the empty mask `0`. -/
def _parse_mask (masks : List String) : Nat := _parse_mask_go 0 masks

/-- The mask contributed by one token: its table value, `0` when the
token is unrecognised. -/
def tokenMask (m : String) : Nat := (chainFind maskTable (pyStrip m)).getD 0

/-- A token is recognised when the chain of `_parse_mask` matches it. -/
def recognized (m : String) : Bool := (chainFind maskTable (pyStrip m)).isSome

/-- The `events` configuration value as `WatcherDaemon.run` resolves it
(line 329): split on commas, then `_parse_mask`. -/
def eventsToMask (events : String) : Nat := _parse_mask (pySplitComma events)

/-! ### Mask-resolver lemmas -/

theorem addMask_lor (n c : Nat) : _add_mask n c = c ||| n := by
  unfold _add_mask
  split_ifs with h
  · simp [h]
  · rfl

theorem parse_go_step (ret : Nat) (m : String) (ms : List String) :
    _parse_mask_go ret (m :: ms) = _parse_mask_go (ret ||| tokenMask m) ms := by
  show (match chainFind maskTable (pyStrip m) with
    | some v => _parse_mask_go (_add_mask v ret) ms
    | none => _parse_mask_go ret ms) = _parse_mask_go (ret ||| tokenMask m) ms
  cases hfind : chainFind maskTable (pyStrip m) with
  | none => simp [tokenMask, hfind]
  | some v => simp [tokenMask, hfind, addMask_lor]

theorem parse_go_foldl (l : List String) :
    ∀ ret : Nat, _parse_mask_go ret l = l.foldl (fun acc t => acc ||| tokenMask t) ret := by
  induction l with
  | nil => intro ret; rfl
  | cons m ms ih => intro ret; rw [parse_go_step, List.foldl_cons, ih]

theorem foldl_lor_perm (g : String → Nat) {l₁ l₂ : List String} (hp : l₁.Perm l₂) :
    ∀ n : Nat, l₁.foldl (fun acc t => acc ||| g t) n = l₂.foldl (fun acc t => acc ||| g t) n := by
  induction hp with
  | nil => intro n; rfl
  | cons x hp ih => intro n; simp only [List.foldl_cons]; exact ih _
  | swap x y l => intro n; simp only [List.foldl_cons]
                  rw [Nat.lor_assoc, Nat.lor_comm (g y) (g x), ← Nat.lor_assoc]
  | trans h₁ h₂ ih₁ ih₂ => intro n; rw [ih₁, ih₂]

theorem tokenMask_strip (m : String) : tokenMask (pyStrip m) = tokenMask m := by
  simp only [tokenMask, pyStrip_idem]

theorem tokenMask_zero_of_unrecognized (m : String) (h : recognized m = false) :
    tokenMask m = 0 := by
  unfold recognized at h
  unfold tokenMask
  cases hfind : chainFind maskTable (pyStrip m) with
  | none => rfl
  | some v => rw [hfind] at h; simp at h

/-- C4: for every token list containing only recognised tokens, the
Mask Resolver's result equals the bitwise OR of each token's table
value (with `move` expanding to `MOVED_FROM ||| MOVED_TO`, `close` to
`CLOSE_WRITE ||| CLOSE_NOWRITE`, and `all` to the union of all twelve
primitive kinds), and the result is independent of the order of the
input tokens. -/
theorem parse_mask_or_of_table (l l₂ : List String)
    (_hrec : ∀ t ∈ l, recognized t = true) (hp : l.Perm l₂) :
    _parse_mask l = (l.map tokenMask).foldl (fun a b => a ||| b) 0 ∧
    _parse_mask l = _parse_mask l₂ ∧
    tokenMask "move" = (IN_MOVED_FROM ||| IN_MOVED_TO) ∧
    tokenMask "close" = (IN_CLOSE_WRITE ||| IN_CLOSE_NOWRITE) ∧
    tokenMask "all" =
      (IN_ACCESS ||| IN_ATTRIB ||| IN_CLOSE_WRITE ||| IN_CLOSE_NOWRITE |||
        IN_CREATE ||| IN_DELETE ||| IN_DELETE_SELF ||| IN_MODIFY |||
        IN_MOVE_SELF ||| IN_MOVED_FROM ||| IN_MOVED_TO ||| IN_OPEN) := by
  refine ⟨?_, ?_, by decide, by decide, by decide⟩
  · rw [_parse_mask, parse_go_foldl]
    simp only [List.foldl_map]
  · rw [_parse_mask, parse_go_foldl, _parse_mask, parse_go_foldl]
    exact foldl_lor_perm tokenMask hp 0

/-- Closed witness for `parse_mask_or_of_table` at the token list
`["move", " create"]` and its reversal. -/
theorem parse_mask_or_of_table_witness :
    _parse_mask ["move", " create"] =
      ((["move", " create"].map tokenMask).foldl (fun a b => a ||| b) 0) ∧
    _parse_mask ["move", " create"] = _parse_mask [" create", "move"] := by
  have h := parse_mask_or_of_table ["move", " create"] [" create", "move"]
    (by decide) (List.Perm.swap " create" "move" [])
  exact ⟨h.1, h.2.1⟩

/-- C5: for every token list containing zero recognised tokens
(including the empty list), the Mask Resolver returns the empty mask
(the Python `False` start, embedded as `0`); unrecognised tokens are
silently ignored — dropping them from any longer list leaves the result
unchanged — and never cause an error (`_parse_mask` is total). -/
theorem parse_mask_empty_of_unrecognized (l : List String)
    (h : ∀ t ∈ l, recognized t = false) :
    _parse_mask l = 0 ∧ ∀ l₂ : List String, _parse_mask (l ++ l₂) = _parse_mask l₂ := by
  have hz : _parse_mask l = 0 := by
    rw [_parse_mask, parse_go_foldl]
    induction l with
    | nil => rfl
    | cons m ms ih =>
      rw [List.foldl_cons, tokenMask_zero_of_unrecognized m (h m (by simp))]
      simp only [Nat.or_zero]
      exact ih (fun t ht => h t (by simp [ht]))
  refine ⟨hz, fun l₂ => ?_⟩
  rw [_parse_mask, parse_go_foldl, List.foldl_append]
  have h0 : l.foldl (fun acc t => acc ||| tokenMask t) 0 = 0 := by
    rw [← parse_go_foldl, ← _parse_mask]; exact hz
  rw [h0, ← parse_go_foldl, ← _parse_mask]

/-- Closed witness for `parse_mask_empty_of_unrecognized` at a list of
three unrecognised tokens, appended to `["create"]`. -/
theorem parse_mask_empty_of_unrecognized_witness :
    _parse_mask ["frobnicate", " nonsense ", ""] = 0 ∧
    _parse_mask (["frobnicate", " nonsense ", ""] ++ ["create"]) = _parse_mask ["create"] := by
  have h := parse_mask_empty_of_unrecognized ["frobnicate", " nonsense ", ""] (by decide)
  exact ⟨h.1, h.2 ["create"]⟩

/-- C10: the Mask Resolver strips leading and trailing whitespace from
every token before matching it against the table — pre-stripping all
tokens never changes the result — so a comma-separated events string
with spaces around the commas (`"create, delete"`) resolves to the same
mask as one without spaces. -/
theorem parse_mask_strips_tokens :
    (∀ l : List String, _parse_mask (l.map pyStrip) = _parse_mask l) ∧
    pySplitComma "create, delete" = ["create", " delete"] ∧
    _parse_mask (pySplitComma "create, delete") = _parse_mask (pySplitComma "create,delete") := by
  refine ⟨?_, by decide, by decide⟩
  intro l
  rw [_parse_mask, parse_go_foldl, _parse_mask, parse_go_foldl]
  rw [List.foldl_map]
  have hfun : (fun (x : Nat) (y : String) => x ||| tokenMask (pyStrip y)) =
      fun (x : Nat) (y : String) => x ||| tokenMask y := by
    funext x y
    rw [tokenMask_strip]
  rw [hfun]

/-! ## The setup loop of `WatcherDaemon.run` (lines 320-359)

`run` iterates over the configuration sections, reading each section's
options, building its exclusion filter and event handler, registering
the watch, and appending a `ThreadedNotifier`; only after the whole
loop does a second loop start every appended notifier.  There is no
`try`/`except` anywhere in `run`: an exception raised while processing
one section (for example `configparser` raising `NoOptionError` on a
missing `events`/`watch`/`command` option, or `getboolean` on a
malformed flag) propagates out of `run`, so later sections are never
processed and the `notifier.start()` loop is never reached — not even
for the notifiers already appended.  By contrast the external
`pyinotify.WatchManager.add_watch` runs in its default quiet mode: a
nonexistent path or kernel subscription error is logged by the library
and reported through its return value, without raising. -/

/-- Outcome of setting up one configuration section: the watch was
registered (`subscribed`); the external `add_watch` reported failure
quietly, logging it individually (`subFailedQuiet`); or the section's
setup raised an exception (`raised`). -/
inductive SecResult
  | subscribed
  | subFailedQuiet
  | raised
deriving DecidableEq

/-- The section loop of `WatcherDaemon.run`: process sections in order,
collecting one notifier per section; a raising section aborts the whole
function (`none`). -/
def buildNotifiers : List SecResult → Option (List SecResult)
  | [] => some []
  | SecResult.raised :: _ => none
  | r :: rest => (buildNotifiers rest).map (fun l => r :: l)

/-- The notifiers `WatcherDaemon.run` actually starts: all collected
ones when the section loop completes, none when it aborted — the
`notifier.start()` loop at the end of `run` is unreachable then. -/
def startedNotifiers (sections : List SecResult) : List SecResult :=
  (buildNotifiers sections).getD []

/-- C2 counterexample: with a first section whose setup raises and a
second, well-formed section, the claim demands that the second binding
still be constructed and started; but `WatcherDaemon.run` starts no
notifier at all — the second section's binding is not started. -/
theorem setup_failure_not_isolated_cex :
    startedNotifiers [SecResult.raised, SecResult.subscribed] = [] ∧
    SecResult.subscribed ∉ startedNotifiers [SecResult.raised, SecResult.subscribed] := by
  decide

theorem buildNotifiers_none_of_raised {l : List SecResult}
    (h : SecResult.raised ∈ l) : buildNotifiers l = none := by
  induction l with
  | nil => simp at h
  | cons r rest ih =>
    cases r with
    | raised => rfl
    | subscribed =>
      have hr : SecResult.raised ∈ rest := by
        rcases List.mem_cons.mp h with h0 | h0
        · exact absurd h0.symm (by decide)
        · exact h0
      show (buildNotifiers rest).map _ = none
      rw [ih hr]
      rfl
    | subFailedQuiet =>
      have hr : SecResult.raised ∈ rest := by
        rcases List.mem_cons.mp h with h0 | h0
        · exact absurd h0.symm (by decide)
        · exact h0
      show (buildNotifiers rest).map _ = none
      rw [ih hr]
      rfl

theorem buildNotifiers_all_of_no_raise {l : List SecResult}
    (h : SecResult.raised ∉ l) : buildNotifiers l = some l := by
  induction l with
  | nil => rfl
  | cons r rest ih =>
    have hrest : SecResult.raised ∉ rest := fun hc => h (List.mem_cons_of_mem r hc)
    have hr : r ≠ SecResult.raised := fun hc => h (hc ▸ List.mem_cons_self r rest)
    cases r with
    | raised => exact absurd rfl hr
    | subscribed =>
      show (buildNotifiers rest).map _ = _
      rw [ih hrest]
      rfl
    | subFailedQuiet =>
      show (buildNotifiers rest).map _ = _
      rw [ih hrest]
      rfl

/-- C2 amended: quiet subscription failures (nonexistent path or kernel
subscription error, reported by the external `add_watch` by return
value and logged individually) do not prevent the other watch bindings
from being constructed and started; but a setup failure that raises —
for example a malformed or missing configuration option — aborts the
whole startup: no notifier is started, not even for sections already
processed, and later sections are never reached. -/
theorem setup_raise_aborts_startup (sections : List SecResult) :
    (SecResult.raised ∈ sections → startedNotifiers sections = []) ∧
    (SecResult.raised ∉ sections → startedNotifiers sections = sections) := by
  constructor
  · intro hmem
    unfold startedNotifiers
    rw [buildNotifiers_none_of_raised hmem]
    rfl
  · intro hmem
    unfold startedNotifiers
    rw [buildNotifiers_all_of_no_raise hmem]
    rfl

/-- Closed witness for `setup_raise_aborts_startup`: a raising first
section aborts everything; a quietly failing first section leaves the
second binding constructed and started. -/
theorem setup_raise_aborts_startup_witness :
    startedNotifiers [SecResult.raised, SecResult.subscribed] = [] ∧
    startedNotifiers [SecResult.subFailedQuiet, SecResult.subscribed] =
      [SecResult.subFailedQuiet, SecResult.subscribed] :=
  ⟨(setup_raise_aborts_startup [SecResult.raised, SecResult.subscribed]).1 (by decide),
   (setup_raise_aborts_startup [SecResult.subFailedQuiet, SecResult.subscribed]).2 (by decide)⟩

/-! ## The exclusion filter (`WatcherDaemon.run`, lines 336-350) -/

/-- The exclusion-filter construction in `WatcherDaemon.run` (lines
336-341): an empty or whitespace-only `excluded` value yields no filter
(`None`); otherwise the comma-separated pattern list builds a
`pyinotify.ExcludeFilter`. -/
def buildExcl (excluded : String) : Option (List String) :=
  if pyStrip excluded = "" then none
  else some (pySplitComma excluded)

/-- Modelled from the spec: the application of the exclusion filter
happens inside the external `pyinotify` subscription layer (the
repository only constructs the filter and passes it to `add_watch`);
per the spec's interface contract, with a filter present an event whose
path matches any pattern is discarded before the handler sees it.
`rmatch` abstracts regular-expression matching. -/
def eventExcluded (rmatch : String → String → Bool)
    (excl : Option (List String)) (pathname : String) : Bool :=
  match excl with
  | none => false
  | some pats => pats.any (fun p => rmatch p pathname)

/-- One event through a watch binding: either discarded by the
exclusion filter (`none` — the handler is never invoked, so the event
is neither logged nor expanded nor dispatched), or handled by
`run_command`. -/
def bindingDispatch (rmatch : String → String → Bool) (sysFails : String → Bool)
    (excluded tmpl : String) (e : FileEvent) : Option RunResult :=
  if eventExcluded rmatch (buildExcl excluded) e.pathname then none
  else some (run_command sysFails tmpl e)

/-- C8: for every watch with a non-empty exclusion pattern list, every
event whose path matches any pattern is discarded before reaching the
Command Expander (never logged, never dispatched); for every watch
whose exclusion value is empty (or whitespace only), no event is
filtered out. -/
theorem excluded_events_discarded (rmatch : String → String → Bool)
    (sysFails : String → Bool) (excluded tmpl : String) (e : FileEvent) :
    (pyStrip excluded ≠ "" →
      (pySplitComma excluded).any (fun p => rmatch p e.pathname) = true →
      bindingDispatch rmatch sysFails excluded tmpl e = none) ∧
    (pyStrip excluded = "" →
      bindingDispatch rmatch sysFails excluded tmpl e =
        some (run_command sysFails tmpl e)) := by
  constructor
  · intro hne hmatch
    unfold bindingDispatch eventExcluded buildExcl
    rw [if_neg hne]
    simp only [hmatch]
    rfl
  · intro hemp
    unfold bindingDispatch eventExcluded buildExcl
    rw [if_pos hemp]
    rfl

/-- Closed witness for `excluded_events_discarded`: with pattern list
`"/tmp/x/b.tmp"` (matching under string-equality `rmatch`) the event on
`/tmp/x/b.tmp` is discarded; with an empty `excluded` value it is
dispatched. -/
theorem excluded_events_discarded_witness :
    bindingDispatch (fun p s => p == s) (fun _ => false) "/tmp/x/b.tmp" "echo hi"
      ⟨"/tmp/x", "/tmp/x/b.tmp", "IN_CREATE", 256, none⟩ = none ∧
    bindingDispatch (fun p s => p == s) (fun _ => false) "" "echo hi"
      ⟨"/tmp/x", "/tmp/x/b.tmp", "IN_CREATE", 256, none⟩ =
      some (run_command (fun _ => false) "echo hi"
        ⟨"/tmp/x", "/tmp/x/b.tmp", "IN_CREATE", 256, none⟩) :=
  ⟨(excluded_events_discarded (fun p s => p == s) (fun _ => false) "/tmp/x/b.tmp" "echo hi"
      ⟨"/tmp/x", "/tmp/x/b.tmp", "IN_CREATE", 256, none⟩).1 (by decide) (by decide),
   (excluded_events_discarded (fun p s => p == s) (fun _ => false) "" "echo hi"
      ⟨"/tmp/x", "/tmp/x/b.tmp", "IN_CREATE", 256, none⟩).2 (by decide)⟩

/-! ## Claims about `run_command` -/

/-- A non-move create event on `/tmp/x/a.txt` under the watch root
`/tmp/x`, as pyinotify delivers it (`IN_CREATE = 256`, no cookie). -/
def evCreateA : FileEvent :=
  { path := "/tmp/x", pathname := "/tmp/x/a.txt", maskname := "IN_CREATE",
    mask := 256, cookie := none }

/-- The expanded command `echo '/tmp/x/a.txt'` (single quotes written
via `squoteC`). -/
def cmdEchoA : String :=
  String.mk ['e', 'c', 'h', 'o', ' ', squoteC, '/', 't', 'm', 'p', '/', 'x', '/',
    'a', '.', 't', 'x', 't', squoteC]

/-- Substituting a template that is exactly one braced `cookie`
placeholder yields the bound value. -/
theorem substitute_cookie_only (env : String → Option String) (v : String)
    (h : env "cookie" = some v) : substitute "${cookie}" env = some v := by
  simp +decide [substitute, substFuel, takeId, idStart, idCont, h]

/-- C6: for every event that carries no move cookie (every non-move
event), `run_command` binds the `cookie` placeholder to the
shell-quoting of the literal value `0` — the three-character string
quote-zero-quote, which differs from the quoting of the empty string —
and expanding the `${cookie}` placeholder succeeds with that value
rather than raising. -/
theorem cookie_defaults_to_zero (e : FileEvent) (h : e.cookie = none) :
    envOf e "cookie" = some (shellquote "0") ∧
    substitute "${cookie}" (envOf e) = some (shellquote "0") ∧
    shellquote "0" = String.mk [squoteC, '0', squoteC] ∧
    shellquote "0" ≠ shellquote "" := by
  have hc : envOf e "cookie" = some (shellquote "0") := by
    simp +decide [envOf, h]
  exact ⟨hc, substitute_cookie_only (envOf e) (shellquote "0") hc, by decide, by decide⟩

/-- Closed witness for `cookie_defaults_to_zero` at the concrete
cookieless create event `evCreateA`. -/
theorem cookie_defaults_to_zero_witness :
    envOf evCreateA "cookie" = some (shellquote "0") ∧
    substitute "${cookie}" (envOf evCreateA) = some (shellquote "0") ∧
    shellquote "0" = String.mk [squoteC, '0', squoteC] ∧
    shellquote "0" ≠ shellquote "" :=
  cookie_defaults_to_zero evCreateA rfl

/-- C3 counterexample: with the command template `${bogus}` — a
placeholder outside the defined set — and a concrete event,
`run_command` does not catch and log the `TemplateError`: the
exception escapes `run_command` (`raised`; its `try` only guards
`os.system`), and the processing loop does not continue — the second
queued event is never dispatched. -/
theorem template_error_not_caught_cex :
    run_command (fun _ => false) "${bogus}" evCreateA = RunResult.raised ∧
    processEvents (fun _ => false) "${bogus}" [evCreateA, evCreateA] =
      ([RunResult.raised], false) := by
  decide

/-- C3 amended: for every event and every command template whose
expansion fails (in particular one referencing a placeholder name
outside the defined set `watched`, `filename`, `tflags`, `nflags`,
`cookie`), the TemplateError is not caught in `run_command`: that
event's dispatch is skipped, but the exception propagates out of the
handler, so the watch's processing loop stops instead of continuing;
only `OSError` from launching the command is caught and logged. -/
theorem template_error_uncaught (sysFails : String → Bool) (tmpl : String)
    (e : FileEvent) (es : List FileEvent)
    (h : substitute tmpl (envOf e) = none) :
    run_command sysFails tmpl e = RunResult.raised ∧
    processEvents sysFails tmpl (e :: es) = ([RunResult.raised], false) := by
  have h1 : run_command sysFails tmpl e = RunResult.raised := by
    simp [run_command, h]
  exact ⟨h1, by simp [processEvents, h1]⟩

/-- Closed witness for `template_error_uncaught` at the template
`${bogus}` and a single-event queue. -/
theorem template_error_uncaught_witness :
    run_command (fun _ => false) "${bogus}" evCreateA = RunResult.raised ∧
    processEvents (fun _ => false) "${bogus}" [evCreateA] = ([RunResult.raised], false) :=
  template_error_uncaught (fun _ => false) "${bogus}" evCreateA [] (by decide)

/-- C7: for every event whose template expands to a command `cmd` that
the OS then fails to launch (`os.system` raising `OSError`), the
failure is caught and logged together with the literal failing command
text (`loggedFailure cmd` carries exactly `cmd`), and the processing
loop continues unaffected: the remaining events are processed exactly
as they would have been, and the subscription (untouched by
`run_command`) is unchanged. -/
theorem exec_failure_logged_loop_continues (sysFails : String → Bool) (tmpl : String)
    (e : FileEvent) (es : List FileEvent) (cmd : String)
    (hs : substitute tmpl (envOf e) = some cmd) (hf : sysFails cmd = true) :
    run_command sysFails tmpl e = RunResult.loggedFailure cmd ∧
    processEvents sysFails tmpl (e :: es) =
      (RunResult.loggedFailure cmd :: (processEvents sysFails tmpl es).1,
        (processEvents sysFails tmpl es).2) := by
  have h1 : run_command sysFails tmpl e = RunResult.loggedFailure cmd := by
    simp [run_command, hs, hf]
  exact ⟨h1, by simp [processEvents, h1]⟩

/-- Closed witness for `exec_failure_logged_loop_continues`: an OS that
fails every launch, the template `echo ${filename}` and the event
`evCreateA`. -/
theorem exec_failure_logged_loop_continues_witness :
    run_command (fun _ => true) "echo ${filename}" evCreateA =
      RunResult.loggedFailure cmdEchoA ∧
    processEvents (fun _ => true) "echo ${filename}" [evCreateA] =
      ([RunResult.loggedFailure cmdEchoA], true) :=
  exec_failure_logged_loop_continues (fun _ => true) "echo ${filename}" evCreateA []
    cmdEchoA (by decide) rfl

/-- C9: for the watch specification with path `/tmp/x`, events
`create,delete`, empty exclusion value, and command template
`echo ${filename}`, a create event on `/tmp/x/a.txt` resolves the mask
to `CREATE ||| DELETE`, builds no exclusion filter, and dispatches
exactly the command string `echo '/tmp/x/a.txt'`. -/
theorem create_event_dispatch_example :
    eventsToMask "create,delete" = (IN_CREATE ||| IN_DELETE) ∧
    buildExcl "" = none ∧
    substitute "echo ${filename}" (envOf evCreateA) = some cmdEchoA ∧
    run_command (fun _ => false) "echo ${filename}" evCreateA =
      RunResult.dispatched cmdEchoA := by
  decide
